import Mathlib

/-!
# Brik Brik — verification of the game-state engine

Shallow embedding of the authoritative game engine of the Brik Brik
grid-packing puzzle (server `board.js`, shared client logic): the grid
board operations, the shape catalog and rotation transform, the piece
generator, and the session HTTP handlers (place, requestNewPieces, rank).

Modelling conventions:
* The JS mutable `boardSize × boardSize` array of 0/1 cells is embedded as a
  total function `Grid := Nat → Nat → Nat`; the JS in-place assignment
  `board[i][j] = v` becomes the functional override `setCell`.
* Imperative `for` loops that write cells become `List.foldl` over
  `List.range`, preserving iteration order.
* `Math.random()`-driven choices (shape index, rotation shuffle, round
  shuffle) are supplied by an explicit oracle (`GenChoices`); a random
  in-range array index `Math.floor(Math.random() * len)` is modelled as an
  arbitrary natural reduced `% len`.
* Cosmetic piece fields (`color`, `id`) and the leaderboard timestamp carry
  no gameplay meaning and are omitted; a piece is its matrix.
-/

/-- Board side length (`BOARD_SIZE = 8` in `board.js`). -/
def BOARD_SIZE : Nat := 8

/-- Pieces dealt per round (`PIECES_PER_ROUND = 3`). -/
def PIECES_PER_ROUND : Nat := 3

/-- Attempt bound of the generator loop (`MAX_GENERATION_ATTEMPTS = 50`). -/
def MAX_GENERATION_ATTEMPTS : Nat := 50

/-- Base points per placed block (`BASE_POINTS_PER_BLOCK = 1`). -/
def BASE_POINTS_PER_BLOCK : Nat := 1

/-- Base points per cleared line (`LINE_CLEAR_BASE_POINTS = 10`). -/
def LINE_CLEAR_BASE_POINTS : Nat := 10

/-- Multiplier of the quadratic line-clear term (`LINE_CLEAR_MULTIPLIER = 2`). -/
def LINE_CLEAR_MULTIPLIER : Nat := 2

/-- A piece matrix: rows of 0/1 cells, as the JS 2-D arrays. -/
abbrev Piece := List (List Nat)

/-- The board as a total cell function; cells outside `BOARD_SIZE` are
never read by in-bounds operations. -/
abbrev Grid := Nat → Nat → Nat

/-- Read a matrix cell, `0` outside the matrix (JS `undefined` compares
unequal to `1` exactly as `0` does in every guard of the engine). -/
def cell (p : Piece) (i j : Nat) : Nat := (p.getD i []).getD j 0

/-- `piece.length` — the number of rows of a piece matrix. -/
def pRows (p : Piece) : Nat := p.length

/-- `piece[0].length` — the number of columns of a piece matrix. -/
def pCols (p : Piece) : Nat := (p.headD []).length

/-- JS in-place cell assignment `board[i][j] = v` as functional override. -/
def setCell (g : Grid) (i j v : Nat) : Grid :=
  fun a b => if a = i ∧ b = j then v else g a b

/-- The all-empty board produced by `createEmptyBoard`. -/
def emptyBoard : Grid := fun _ _ => 0

/-- `BoardManager.canPlace(piece, row, col)` (board.js:293-309): bounds
check on signed coordinates, then overlap scan over the piece cells. -/
def canPlace (g : Grid) (p : Piece) (row col : Int) : Bool :=
  if row < 0 || col < 0 || row + (pRows p : Int) > (BOARD_SIZE : Int)
      || col + (pCols p : Int) > (BOARD_SIZE : Int) then
    false
  else
    (List.range (pRows p)).all fun i =>
      (List.range (pCols p)).all fun j =>
        !(cell p i j == 1 && g (row.toNat + i) (col.toNat + j) == 1)

/-- The cell-writing double loop of `placePiece` (board.js:316-322):
`for r, for c: if piece[r][c] === 1 then board[row+r][col+c] = 1`. -/
def placeCells (g : Grid) (p : Piece) (row col : Nat) : Grid :=
  (List.range (pRows p)).foldl
    (fun acc r =>
      (List.range (pCols p)).foldl
        (fun acc2 c =>
          if cell p r c = 1 then setCell acc2 (row + r) (col + c) 1 else acc2)
        acc)
    g

/-- `BoardManager.placePiece(pieceMatrix, row, col)` (board.js:311-324):
returns the success flag and the (possibly mutated) board. -/
def placePiece (g : Grid) (p : Piece) (row col : Int) : Bool × Grid :=
  if !canPlace g p row col then (false, g)
  else (true, placeCells g p row.toNat col.toNat)

/-- `BoardManager.checkLines()` (board.js:326-350): full row indices
(`every(val => val === 1)`) and full column indices (no cell `=== 0`),
each scanned in increasing order. -/
def checkLines (g : Grid) : List Nat × List Nat :=
  ((List.range BOARD_SIZE).filter fun r =>
      (List.range BOARD_SIZE).all fun c => g r c == 1,
   (List.range BOARD_SIZE).filter fun c =>
      (List.range BOARD_SIZE).all fun r => !(g r c == 0))

/-- `BoardManager.clearLines(lineData)` (board.js:352-366): zero every cell
of each listed row, then of each listed column. -/
def clearLines (g : Grid) (lineData : List Nat × List Nat) : Grid :=
  let g1 := lineData.1.foldl
    (fun acc r =>
      (List.range BOARD_SIZE).foldl (fun acc2 c => setCell acc2 r c 0) acc)
    g
  lineData.2.foldl
    (fun acc c =>
      (List.range BOARD_SIZE).foldl (fun acc2 r => setCell acc2 r c 0) acc)
    g1

/-- `BoardManager.simulatePlaceAndClear(board, piece, r, c)`
(board.js:368-410): unchecked placement, then inline full-line detection
and clearing on the supplied detached board. -/
def simulatePlaceAndClear (board : Grid) (p : Piece) (r c : Nat) : Grid :=
  let b1 := (List.range (pRows p)).foldl
    (fun acc i =>
      (List.range (pCols p)).foldl
        (fun acc2 j =>
          if cell p i j = 1 then setCell acc2 (r + i) (c + j) 1 else acc2)
        acc)
    board
  let rowsToRemove := (List.range BOARD_SIZE).filter fun i =>
    (List.range BOARD_SIZE).all fun j => b1 i j == 1
  let colsToRemove := (List.range BOARD_SIZE).filter fun j =>
    (List.range BOARD_SIZE).all fun i => !(b1 i j == 0)
  let b2 := rowsToRemove.foldl
    (fun acc ri =>
      (List.range BOARD_SIZE).foldl (fun acc2 j => setCell acc2 ri j 0) acc)
    b1
  colsToRemove.foldl
    (fun acc ci =>
      (List.range BOARD_SIZE).foldl (fun acc2 i => setCell acc2 i ci 0) acc)
    b2

/-- `BoardManager.canPlaceOnBoard(board, piece, row, col)`
(board.js:423-439): textually identical to `canPlace` but against a
caller-supplied board. -/
def canPlaceOnBoard (g : Grid) (p : Piece) (row col : Int) : Bool :=
  if row < 0 || col < 0 || row + (pRows p : Int) > (BOARD_SIZE : Int)
      || col + (pCols p : Int) > (BOARD_SIZE : Int) then
    false
  else
    (List.range (pRows p)).all fun i =>
      (List.range (pCols p)).all fun j =>
        !(cell p i j == 1 && g (row.toNat + i) (col.toNat + j) == 1)

/-- `BoardManager.findValidPosition(board, piece)` (board.js:412-421):
row-major scan `r ≤ N − rows`, `c ≤ N − cols`, first admissible position.
(For a piece larger than the board the JS loop has no iterations; here the
single truncated candidate fails the bounds check — same `none` result.) -/
def findValidPosition (g : Grid) (p : Piece) : Option (Nat × Nat) :=
  (List.range (BOARD_SIZE - pRows p + 1)).findSome? fun r =>
    (List.range (BOARD_SIZE - pCols p + 1)).findSome? fun c =>
      if canPlaceOnBoard g p (Int.ofNat r) (Int.ofNat c) then some (r, c) else none

/-- Shape `P1` (`[[1,1,1,1]]`, the I4 bar). -/
def P1 : Piece := [[1,1,1,1]]

/-- Shape `P2` (`[[1,1,1]]`, the I3 bar). -/
def P2 : Piece := [[1,1,1]]

/-- Shape `P3` (`[[1,1]]`, the I2 bar). -/
def P3 : Piece := [[1,1]]

/-- Shape `P4` (`[[1]]`, the I1 single block). -/
def P4 : Piece := [[1]]

/-- Shape `P5` (large L). -/
def P5 : Piece := [[1,0,0], [1,0,0], [1,1,1]]

/-- Shape `P6` (small L). -/
def P6 : Piece := [[1,0], [1,1]]

/-- Shape `P7` (tall L). -/
def P7 : Piece := [[1,0], [1,0], [1,1]]

/-- Shape `P8` (T). -/
def P8 : Piece := [[0,1,0], [1,1,1]]

/-- Shape `P9` (Z). -/
def P9 : Piece := [[1,1,0], [0,1,1]]

/-- Shape `P10` (3×3 square). -/
def P10 : Piece := [[1,1,1], [1,1,1], [1,1,1]]

/-- Shape `P11` (2×2 square). -/
def P11 : Piece := [[1,1], [1,1]]

/-- `Object.values(RAW_SHAPES)` — the 11-entry catalog in declaration order. -/
def shapeLibrary : List Piece := [P1, P2, P3, P4, P5, P6, P7, P8, P9, P10, P11]

/-- `PieceGenerator.rotateMatrix(matrix)` (board.js:505-515): 90° clockwise,
`out[c][rows-1-r] = in[r][c]`; the assignment loop writes every entry of the
`cols × rows` output once, so entry `(c, k)` carries `in[rows-1-k][c]`.
(Catalog matrices are rectangular, so the `0`-prefill is never observed.) -/
def rotateMatrix (m : Piece) : Piece :=
  let rows := m.length
  let cols := (m.headD []).length
  (List.range cols).map fun c =>
    (List.range rows).map fun k => cell m (rows - 1 - k) c

/-- `PieceGenerator.getAllRotations(matrix)` (board.js:517-528): four
rotation steps, keeping each matrix only if not already present
(JSON-serialisation equality on number matrices is structural equality),
in order of first production. -/
def getAllRotations (m : Piece) : List Piece :=
  ((List.range 4).foldl
    (fun (st : List Piece × Piece) _ =>
      let rots := if st.1.contains st.2 then st.1 else st.1 ++ [st.2]
      (rots, rotateMatrix st.2))
    ([], m)).1

/-- `matricesEqual(a, b)` (board.js:271-280): dimension checks plus
cell-by-cell equality. -/
def matricesEqual (a b : Piece) : Bool :=
  a.length == b.length &&
  (List.range a.length).all fun i =>
    (a.getD i []).length == (b.getD i []).length &&
    (List.range (a.getD i []).length).all fun j =>
      (a.getD i []).getD j 0 == (b.getD i []).getD j 0

/-- The `Math.random()` draws the generator and the handlers consume,
as an explicit oracle: shape pick and rotation shuffle per (piece index,
attempt number), fallback shape pick per piece index, and the final
presentation shuffle of a dealt round. The claims hold for every oracle, in
particular for the permutations the JS comparator-shuffles produce. -/
structure GenChoices where
  shapeChoice : Nat → Nat → Nat
  shuffle : Nat → Nat → List Piece → List Piece
  fallbackShape : Nat → Nat
  roundShuffle : List Piece → List Piece

/-- `shapeLibrary[Math.floor(Math.random() * shapeLibrary.length)]`: a
random in-range index, modelled as an arbitrary draw reduced mod 11. -/
def pickShape (lib : List Piece) (n : Nat) : Piece := lib.getD (n % lib.length) [[1]]

/-- The generator's inner `while (!foundPiece && attempts < MAX)` loop
(board.js:457-477) for piece `i` against the working grid: pick a shape,
shuffle its distinct rotations, take the first variant admitting a valid
position. Returns the find (variant and position) and the attempts
consumed; the fuel argument starts at `MAX_GENERATION_ATTEMPTS`. -/
def attemptLoop (ch : GenChoices) (i : Nat) (temp : Grid) :
    Nat → Nat → Option (Piece × Nat × Nat) × Nat
  | attempts, 0 => (none, attempts)
  | attempts, fuel + 1 =>
    let shape := pickShape shapeLibrary (ch.shapeChoice i attempts)
    let rotations := ch.shuffle i attempts (getAllRotations shape)
    match rotations.findSome? (fun v =>
        match findValidPosition temp v with
        | some rc => some (v, rc)
        | none => none) with
    | some found => (some found, attempts + 1)
    | none => attemptLoop ch i temp (attempts + 1) fuel

/-- One iteration of the generator's outer `for` loop (board.js:453-500):
the found variant is simulated onto the working grid; after 50 failed
attempts the fallback takes a random catalog shape with no rotation search
and no placement check, leaving the working grid untouched. Returns the
piece matrix with its attempt count, and the new working grid. -/
def genOne (ch : GenChoices) (i : Nat) (temp : Grid) : (Piece × Nat) × Grid :=
  match attemptLoop ch i temp 0 MAX_GENERATION_ATTEMPTS with
  | (some (v, r, c), a) => ((v, a), simulatePlaceAndClear temp v r c)
  | (none, a) => ((pickShape shapeLibrary (ch.fallbackShape i), a), temp)

/-- The two grids live during a generator run: `real` is the board passed
in by reference (`currentBoardState`), `temp` the cloned working grid. The
source's statements operate exclusively on `temp`. -/
structure GenState where
  real : Grid
  temp : Grid

/-- The generator's outer loop over the requested piece count, threading
the working grid. -/
def genLoop (ch : GenChoices) : Nat → Nat → GenState → List (Piece × Nat) × GenState
  | _, 0, st => ([], st)
  | i, n + 1, st =>
    let one := genOne ch i st.temp
    let rest := genLoop ch (i + 1) n { st with temp := one.2 }
    (one.1 :: rest.1, rest.2)

/-- `PieceGenerator.generatePieces(nPieces, currentBoardState)`
(board.js:449-503): clone the board into the working grid (`tempBoard =
currentBoardState.map(row => [...row])`), then run the per-piece loop.
Returns the matrices with their attempt counts and the final pair of
grids. -/
def generatePieces (ch : GenChoices) (nPieces : Nat) (b : Grid) :
    List (Piece × Nat) × GenState :=
  genLoop ch 0 nPieces { real := b, temp := b }

/-- A game session record (`gameState` in board.js:607-614): board, score
and the 3-slot piece set (`null` = consumed slot). The `boardManager` /
`pieceGenerator` members carry no further state of their own. -/
structure GameState where
  board : Grid
  score : Nat
  currentPieces : List (Option Piece)

/-- The rejection reasons of the place handler (HTTP 400 branches of
board.js:655-683), after session lookup. -/
inductive PlaceError
  | invalidPiece
  | invalidCoords
  | cannotPlace
deriving DecidableEq

/-- The success payload of the place handler (board.js:719-727), minus the
echoed board/pieces that equal the new session state. -/
structure PlaceOk where
  score : Nat
  clearedRows : List Nat
  clearedCols : List Nat
  lineClearScore : Nat
  isGameOver : Bool
deriving DecidableEq

/-- The piece-validation loop of the place handler (board.js:647-653):
first non-null slot whose matrix equals the submitted one. -/
def findPieceIndex (slots : List (Option Piece)) (m : Piece) : Option Nat :=
  (List.range slots.length).find? fun i =>
    match slots.getD i none with
    | some p => matricesEqual p m
    | none => false

/-- The claimed line-clear bonus formula, stated from the spec:
`lines×10 + 2×lines×(lines−1)` when `lines > 0`, nothing otherwise. -/
def lineBonus (lines : Nat) : Nat :=
  if lines > 0 then
    lines * LINE_CLEAR_BASE_POINTS + LINE_CLEAR_MULTIPLIER * lines * (lines - 1)
  else 0

/-- `(pieceMatrix.flat().filter(x => x === 1)).length` — the filled-cell
count used for the base score (board.js:686). -/
def blockCount (m : Piece) : Nat := (m.flatten.filter (· == 1)).length

/-- The `POST /api/game/place` handler body after session lookup
(board.js:644-727): slot matching, coordinate bounds, `canPlace`,
placement, base score, line detection/bonus/clearing, slot consumption and
the game-over evaluation over the remaining pieces. -/
def placeMove (st : GameState) (m : Piece) (x y : Int) :
    Except PlaceError (PlaceOk × GameState) :=
  match findPieceIndex st.currentPieces m with
  | none => .error .invalidPiece
  | some idx =>
    if x < 0 || y < 0 || x + (pRows m : Int) > (BOARD_SIZE : Int)
        || y + (pCols m : Int) > (BOARD_SIZE : Int) then
      .error .invalidCoords
    else if !canPlace st.board m x y then
      .error .cannotPlace
    else
      let placed := placePiece st.board m x y
      if !placed.1 then .error .cannotPlace
      else
        let board1 := placed.2
        let score1 := st.score + blockCount m * BASE_POINTS_PER_BLOCK
        let lineData := checkLines board1
        let hasLines := decide (0 < lineData.1.length) || decide (0 < lineData.2.length)
        let count := lineData.1.length + lineData.2.length
        let lineClearScore :=
          if hasLines then
            count * LINE_CLEAR_BASE_POINTS + LINE_CLEAR_MULTIPLIER * count * (count - 1)
          else 0
        let score2 := score1 + lineClearScore
        let board2 := if hasLines then clearLines board1 lineData else board1
        let slots := st.currentPieces.set idx none
        let activePieces := slots.filterMap id
        let isGameOver :=
          if 0 < activePieces.length then
            activePieces.all fun p => (findValidPosition board2 p).isNone
          else false
        .ok ({ score := score2, clearedRows := lineData.1, clearedCols := lineData.2,
               lineClearScore := lineClearScore, isGameOver := isGameOver },
             { board := board2, score := score2, currentPieces := slots })

/-- The rejection reasons of the replenish handler (board.js:751-772). -/
inductive ReplenishError
  | notAllUsed (remaining : Nat)
  | generationFailed
deriving DecidableEq

/-- The `POST /api/game/requestNewPieces` handler body after session lookup
(board.js:748-779): gate on all slots being consumed, generate a fresh
round, shuffle its presentation order, validate the count (the per-piece
`matrix`/`color` presence holds by construction here), install the new
slot set. The response carries the pieces only — in particular no
game-over evaluation or report of any kind. -/
def requestNewPieces (ch : GenChoices) (st : GameState) :
    Except ReplenishError (List Piece) × GameState :=
  if st.currentPieces.all Option.isNone then
    let newPieces := ch.roundShuffle ((generatePieces ch PIECES_PER_ROUND st.board).1.map Prod.fst)
    if newPieces.length = PIECES_PER_ROUND then
      (.ok newPieces, { st with currentPieces := newPieces.map some })
    else (.error .generationFailed, st)
  else
    (.error (.notAllUsed (st.currentPieces.filterMap id).length), st)

/-- A stored leaderboard record, minus the cosmetic timestamp. -/
structure RankRecord where
  name : String
  score : Int
deriving DecidableEq

/-- The rejection reasons of `POST /api/rank` (board.js:824-831): the
`!name` truthiness check (which an empty string fails) and the
not-strictly-higher comparison against the stored record. -/
inductive RankError
  | missingName
  | notHigher
deriving DecidableEq

/-- The `POST /api/rank` handler body (board.js:820-839) over the stored
record: reject an empty name, reject a score not strictly above the stored
one, otherwise store `{name.trim() || 'Anonymous', score}`. Returns the
response and the record store after the call. -/
def saveTopRecord (name : String) (score : Int) (stored : Option RankRecord) :
    Except RankError RankRecord × Option RankRecord :=
  if name = "" then (.error .missingName, stored)
  else
    match stored with
    | some r =>
      if score ≤ r.score then (.error .notHigher, stored)
      else
        let nm := if name.trim = "" then "Anonymous" else name.trim
        (.ok ⟨nm, score⟩, some ⟨nm, score⟩)
    | none =>
      let nm := if name.trim = "" then "Anonymous" else name.trim
      (.ok ⟨nm, score⟩, some ⟨nm, score⟩)

/-- Cells of the board covered by a filled cell of piece `p` anchored at
`(row, col)`: the target of the placement write loop. -/
def coversCell (p : Piece) (row col a b : Nat) : Prop :=
  ∃ r < pRows p, ∃ c < pCols p, cell p r c = 1 ∧ a = row + r ∧ b = col + c

/-- The claim's game-over state on an unplaceable dealt round, reproduced
deterministically: always pick shape index 9 (the 3×3 square `P10`), keep
rotation and round order unshuffled, fall back to the same square. -/
def squareChoices : GenChoices :=
  ⟨fun _ _ => 9, fun _ _ l => l, fun _ => 9, id⟩

/-- A checkerboard-filled grid: every 3×3 window overlaps a filled cell,
so `P10` fits nowhere. -/
def checkerBoard : Grid := fun i j => if (i + j) % 2 = 0 then 1 else 0

/-- A session on `checkerBoard` whose three slots are all consumed. -/
def emptySlotsState : GameState := ⟨checkerBoard, 0, [none, none, none]⟩

/-- Rows 0–3 filled except their last column. -/
def fourRowsBoard : Grid := fun i j => if i < 4 ∧ j < 7 then 1 else 0

/-- The vertical rotation of the I4 bar. -/
def pieceI4v : Piece := [[1], [1], [1], [1]]

/-- A session on `fourRowsBoard` holding only the vertical I4: placing it
at `(0,7)` completes exactly four rows. -/
def fourRowsState : GameState := ⟨fourRowsBoard, 0, [some pieceI4v, none, none]⟩

/-- A fresh session holding only the single block in slot 0. -/
def singleState : GameState := ⟨emptyBoard, 0, [some P4, none, none]⟩

/-- A board filled everywhere except `(0,0)`. -/
def nearFullBoard : Grid := fun i j => if i = 0 ∧ j = 0 then 0 else 1

/-- A session on `nearFullBoard` holding only the single block. -/
def nearFullState : GameState := ⟨nearFullBoard, 0, [some P4, none, none]⟩

/-- The success payload of a concrete `placeMove` call (defaulting on the
error side), used to name the components of a successful placement. -/
def placeResultOk (st : GameState) (m : Piece) (x y : Int) : PlaceOk :=
  match placeMove st m x y with
  | .ok (r, _) => r
  | .error _ => ⟨0, [], [], 0, false⟩

/-- The session state after a concrete successful `placeMove` call
(unchanged on the error side). -/
def placeResultState (st : GameState) (m : Piece) (x y : Int) : GameState :=
  match placeMove st m x y with
  | .ok (_, s) => s
  | .error _ => st

theorem coversCell_iff (p : Piece) (row col a b : Nat) :
    coversCell p row col a b ↔
      ∃ r ∈ List.range (pRows p), ∃ c ∈ List.range (pCols p),
        cell p r c = 1 ∧ a = row + r ∧ b = col + c := by
  simp [coversCell, List.mem_range]

instance (p : Piece) (row col a b : Nat) : Decidable (coversCell p row col a b) :=
  decidable_of_iff _ (coversCell_iff p row col a b).symm

theorem placeRow_apply (p : Piece) (row col r : Nat) (cs : List Nat) :
    ∀ (g : Grid) (a b : Nat),
      (cs.foldl (fun acc2 c =>
          if cell p r c = 1 then setCell acc2 (row + r) (col + c) 1 else acc2) g) a b
      = if ∃ c ∈ cs, cell p r c = 1 ∧ a = row + r ∧ b = col + c then 1 else g a b := by
  induction cs with
  | nil => intro g a b; simp
  | cons c cs ih =>
    intro g a b
    rw [List.foldl_cons, ih]
    by_cases hex : ∃ c' ∈ cs, cell p r c' = 1 ∧ a = row + r ∧ b = col + c'
    · rw [if_pos hex, if_pos]
      obtain ⟨c', hc', hP⟩ := hex
      exact ⟨c', List.mem_cons_of_mem _ hc', hP⟩
    · rw [if_neg hex]
      by_cases hcell : cell p r c = 1
      · rw [if_pos hcell]
        simp only [setCell]
        by_cases hab : a = row + r ∧ b = col + c
        · rw [if_pos hab, if_pos ⟨c, List.mem_cons_self c cs, hcell, hab⟩]
        · rw [if_neg hab, if_neg]
          rintro ⟨c', hmem, h1, h2, h3⟩
          rcases List.mem_cons.mp hmem with rfl | hmem'
          · exact hab ⟨h2, h3⟩
          · exact hex ⟨c', hmem', h1, h2, h3⟩
      · rw [if_neg hcell, if_neg]
        rintro ⟨c', hmem, h1, h2, h3⟩
        rcases List.mem_cons.mp hmem with rfl | hmem'
        · exact hcell h1
        · exact hex ⟨c', hmem', h1, h2, h3⟩

theorem placeLoop_apply (p : Piece) (row col : Nat) (rs : List Nat) :
    ∀ (g : Grid) (a b : Nat),
      (rs.foldl (fun acc r =>
          (List.range (pCols p)).foldl (fun acc2 c =>
            if cell p r c = 1 then setCell acc2 (row + r) (col + c) 1 else acc2) acc) g) a b
      = if ∃ r ∈ rs, ∃ c ∈ List.range (pCols p),
            cell p r c = 1 ∧ a = row + r ∧ b = col + c then 1 else g a b := by
  induction rs with
  | nil => intro g a b; simp
  | cons r rs ih =>
    intro g a b
    rw [List.foldl_cons, ih]
    by_cases hex : ∃ r' ∈ rs, ∃ c ∈ List.range (pCols p),
        cell p r' c = 1 ∧ a = row + r' ∧ b = col + c
    · rw [if_pos hex, if_pos]
      obtain ⟨r', hr', hP⟩ := hex
      exact ⟨r', List.mem_cons_of_mem _ hr', hP⟩
    · rw [if_neg hex, placeRow_apply]
      by_cases hhd : ∃ c ∈ List.range (pCols p), cell p r c = 1 ∧ a = row + r ∧ b = col + c
      · rw [if_pos hhd, if_pos ⟨r, List.mem_cons_self r rs, hhd⟩]
      · rw [if_neg hhd, if_neg]
        rintro ⟨r', hmem, hP⟩
        rcases List.mem_cons.mp hmem with rfl | hmem'
        · exact hhd hP
        · exact hex ⟨r', hmem', hP⟩

theorem placeCells_cell (g : Grid) (p : Piece) (row col a b : Nat) :
    placeCells g p row col a b
      = if coversCell p row col a b then 1 else g a b := by
  rw [placeCells, placeLoop_apply]
  exact if_congr (coversCell_iff p row col a b).symm rfl rfl

theorem simulate_eq_seq (g : Grid) (p : Piece) (r c : Nat) :
    simulatePlaceAndClear g p r c =
      clearLines (placeCells g p r c) (checkLines (placeCells g p r c)) := rfl

theorem attemptLoop_le (ch : GenChoices) (i : Nat) (temp : Grid) :
    ∀ (fuel attempts : Nat), (attemptLoop ch i temp attempts fuel).2 ≤ attempts + fuel := by
  intro fuel
  induction fuel with
  | zero => intro a; simp [attemptLoop]
  | succ f ih =>
    intro a
    simp only [attemptLoop]
    split
    · simp
    · have := ih (a + 1); omega

theorem genOne_attempts (ch : GenChoices) (i : Nat) (temp : Grid) :
    ((genOne ch i temp).1).2 = (attemptLoop ch i temp 0 MAX_GENERATION_ATTEMPTS).2 := by
  unfold genOne
  rcases h : attemptLoop ch i temp 0 MAX_GENERATION_ATTEMPTS with ⟨found, a⟩
  rcases found with _ | ⟨v, r, c⟩ <;> simp

theorem genLoop_length (ch : GenChoices) :
    ∀ (n i : Nat) (st : GenState), ((genLoop ch i n st).1).length = n := by
  intro n
  induction n with
  | zero => intro i st; rfl
  | succ k ih => intro i st; simp [genLoop, ih]

theorem genLoop_attempts (ch : GenChoices) :
    ∀ (n i : Nat) (st : GenState) (pr : Piece × Nat), pr ∈ (genLoop ch i n st).1 →
      pr.2 ≤ MAX_GENERATION_ATTEMPTS := by
  intro n
  induction n with
  | zero => intro i st pr h; simp [genLoop] at h
  | succ k ih =>
    intro i st pr h
    simp only [genLoop, List.mem_cons] at h
    rcases h with rfl | h
    · rw [genOne_attempts]
      simpa using attemptLoop_le ch i st.temp MAX_GENERATION_ATTEMPTS 0
    · exact ih (i + 1) _ pr h

theorem genLoop_real (ch : GenChoices) :
    ∀ (n i : Nat) (st : GenState), ((genLoop ch i n st).2).real = st.real := by
  intro n
  induction n with
  | zero => intro i st; rfl
  | succ k ih => intro i st; simp [genLoop, ih]

/-- Claim C1, counterexample: on `fourRowsBoard` (score 0) the vertical I4
placed at `(0,7)` succeeds, clears exactly 4 rows and 0 columns, and yields
score `68 = 4 + (4·10 + 2·4·3)`, not the `0 + 4 + 66` the claim's bonus
table demands for 4 lines. -/
theorem place_four_lines_scores_68 :
    (placeMove fourRowsState pieceI4v 0 7).map
        (fun rp => (rp.1.score, rp.1.clearedRows.length, rp.1.clearedCols.length))
      = .ok (68, 4, 0) ∧
    blockCount pieceI4v = 4 ∧ fourRowsState.score = 0 ∧ (68 : Nat) ≠ 0 + 4 + 66 := by
  refine ⟨by rfl, by decide, by rfl, by decide⟩

/-- Claim C1 (amended): every successful placement through `placeMove`
raises the score by exactly `blockCount` plus the bonus
`lines×10 + 2×lines×(lines−1)` for `lines > 0` (and nothing when no line
completes), where `lines` counts full rows plus full columns without
deduplication; for 1, 2, 3, 4 lines the bonus is 10, 24, 42, 64. -/
theorem place_score_is_blocks_plus_bonus (st : GameState) (m : Piece) (x y : Int)
    (res : PlaceOk) (st' : GameState)
    (h : placeMove st m x y = .ok (res, st')) :
    res.score = st.score + blockCount m
        + lineBonus (res.clearedRows.length + res.clearedCols.length) ∧
    lineBonus 1 = 10 ∧ lineBonus 2 = 24 ∧ lineBonus 3 = 42 ∧ lineBonus 4 = 64 := by
  refine ⟨?_, by decide, by decide, by decide, by decide⟩
  simp only [placeMove] at h
  split at h
  · simp at h
  · split at h
    · simp at h
    · split at h
      · simp at h
      · split at h
        · simp at h
        · simp only [Except.ok.injEq, Prod.mk.injEq] at h
          obtain ⟨hres, hst⟩ := h
          subst hres
          simp only [lineBonus, BASE_POINTS_PER_BLOCK, LINE_CLEAR_BASE_POINTS,
            LINE_CLEAR_MULTIPLIER, mul_one]
          split_ifs with h1 h2 h3
          · rfl
          · simp only [Bool.or_eq_true, decide_eq_true_eq, not_or, Nat.not_lt,
              Nat.le_zero] at h1 h2
            omega
          · simp only [Bool.or_eq_true, decide_eq_true_eq, not_or, Nat.not_lt,
              Nat.le_zero] at h1 h3
            omega
          · rfl

/-- Witness for `place_score_is_blocks_plus_bonus`: the single block placed
at the origin of an empty session. -/
theorem place_score_is_blocks_plus_bonus_witness :
    (placeResultOk singleState P4 0 0).score
      = singleState.score + blockCount P4
        + lineBonus ((placeResultOk singleState P4 0 0).clearedRows.length
            + (placeResultOk singleState P4 0 0).clearedCols.length) ∧
    lineBonus 1 = 10 ∧ lineBonus 2 = 24 ∧ lineBonus 3 = 42 ∧ lineBonus 4 = 64 :=
  place_score_is_blocks_plus_bonus singleState P4 0 0
    (placeResultOk singleState P4 0 0) (placeResultState singleState P4 0 0) (by rfl)

/-- Claim C2: for every piece matrix and signed position, a false
`canPlace` makes `placePiece` return false with the grid untouched, and a
true `canPlace` makes it return true with exactly the piece-covered cells
set to 1 and every other cell unchanged. -/
theorem placePiece_spec (g : Grid) (p : Piece) (row col : Int) :
    (canPlace g p row col = false → placePiece g p row col = (false, g)) ∧
    (canPlace g p row col = true →
      (placePiece g p row col).1 = true ∧
      ∀ a b, (placePiece g p row col).2 a b =
        if coversCell p row.toNat col.toNat a b then 1 else g a b) := by
  constructor
  · intro h
    simp [placePiece, h]
  · intro h
    constructor
    · simp [placePiece, h]
    · intro a b
      simp [placePiece, h, placeCells_cell]

/-- Witness for `placePiece_spec`: the I2 bar on the empty board. -/
theorem placePiece_spec_witness :
    (placePiece emptyBoard P3 0 0).1 = true ∧
    ∀ a b, (placePiece emptyBoard P3 0 0).2 a b =
      if coversCell P3 0 0 a b then 1 else emptyBoard a b :=
  (placePiece_spec emptyBoard P3 0 0).2 (by decide)

/-- Claim C3, evaluation at the failing input: on the checkerboard session
with all slots consumed, `requestNewPieces` (fallback path, 50 failed
attempts per piece) succeeds and installs three 3×3 squares even though
none of them has any valid position on the board — and its response is the
piece list alone, with no game-over evaluation or report. -/
theorem replenish_unplaceable_set_not_reported :
    requestNewPieces squareChoices emptySlotsState =
      (.ok [P10, P10, P10],
       { emptySlotsState with currentPieces := [some P10, some P10, some P10] }) ∧
    (∀ p ∈ [P10, P10, P10], findValidPosition emptySlotsState.board p = none) :=
  ⟨rfl, by decide⟩

/-- Claim C4, counterexample: the I4 bar has exactly 2 structurally
distinct rotations (it is 180°-symmetric), not the 4 the claim asserts. -/
theorem rotations_of_I4_are_two :
    (getAllRotations P1).length = 2 ∧ (getAllRotations P1).length ≠ 4 := by
  decide

/-- Claim C4 (amended): the distinct-rotation counts of the catalog are 1
for the two squares and I1; 2 for I2, and also for I4, I3 and Z (each
180°-symmetric); and 4 for L-large, L-small, L-tall and T. -/
theorem distinct_rotation_counts :
    (getAllRotations P10).length = 1 ∧ (getAllRotations P11).length = 1 ∧
    (getAllRotations P4).length = 1 ∧
    (getAllRotations P3).length = 2 ∧ (getAllRotations P1).length = 2 ∧
    (getAllRotations P2).length = 2 ∧ (getAllRotations P9).length = 2 ∧
    (getAllRotations P5).length = 4 ∧ (getAllRotations P6).length = 4 ∧
    (getAllRotations P7).length = 4 ∧ (getAllRotations P8).length = 4 := by
  decide

/-- Claim C5: wherever `canPlace` holds on a detached grid copy,
`simulatePlaceAndClear` produces exactly the grid of the sequence
`placePiece`, then `checkLines`, then `clearLines` of the detected lines. -/
theorem simulate_refines_place_detect_clear (g : Grid) (p : Piece) (r c : Nat)
    (h : canPlace g p (r : Int) (c : Int) = true) :
    simulatePlaceAndClear g p r c =
      clearLines (placePiece g p (r : Int) (c : Int)).2
        (checkLines (placePiece g p (r : Int) (c : Int)).2) := by
  have h2 : (placePiece g p (r : Int) (c : Int)).2 = placeCells g p r c := by
    simp [placePiece, h]
  rw [h2]
  exact simulate_eq_seq g p r c

/-- Witness for `simulate_refines_place_detect_clear`: the single block on
the empty board. -/
theorem simulate_refines_place_detect_clear_witness :
    simulatePlaceAndClear emptyBoard P4 0 0 =
      clearLines (placePiece emptyBoard P4 (0 : Int) (0 : Int)).2
        (checkLines (placePiece emptyBoard P4 (0 : Int) (0 : Int)).2) :=
  simulate_refines_place_detect_clear emptyBoard P4 0 0 (by decide)

/-- Claim C6: for every choice oracle and board, `generatePieces` returns
exactly `PIECES_PER_ROUND = 3` pieces, each produced within at most
`MAX_GENERATION_ATTEMPTS = 50` shape attempts; and whenever the 50
attempts of a piece all fail, that piece is the oracle's catalog shape
taken directly — no rotation search, no placement check, and the working
grid untouched. -/
theorem generatePieces_three_bounded (ch : GenChoices) (b : Grid) :
    ((generatePieces ch PIECES_PER_ROUND b).1).length = PIECES_PER_ROUND ∧
    (∀ pr ∈ (generatePieces ch PIECES_PER_ROUND b).1,
      pr.2 ≤ MAX_GENERATION_ATTEMPTS) ∧
    (∀ (i : Nat) (temp : Grid),
      (attemptLoop ch i temp 0 MAX_GENERATION_ATTEMPTS).1 = none →
      genOne ch i temp =
        ((pickShape shapeLibrary (ch.fallbackShape i),
          (attemptLoop ch i temp 0 MAX_GENERATION_ATTEMPTS).2), temp)) := by
  refine ⟨genLoop_length ch PIECES_PER_ROUND 0 _,
    fun pr h => genLoop_attempts ch PIECES_PER_ROUND 0 _ pr h, ?_⟩
  intro i temp hnone
  unfold genOne
  rcases h : attemptLoop ch i temp 0 MAX_GENERATION_ATTEMPTS with ⟨found, a⟩
  rw [h] at hnone
  rcases found with _ | ⟨v, r, c⟩
  · simp
  · simp at hnone

/-- Witness for `generatePieces_three_bounded`: the square-only oracle on
the checkerboard, where every attempt fails and the fallback fires. -/
theorem generatePieces_three_bounded_witness :
    ((generatePieces squareChoices PIECES_PER_ROUND checkerBoard).1).length
      = PIECES_PER_ROUND ∧
    ((P10, 50) : Piece × Nat).2 ≤ MAX_GENERATION_ATTEMPTS ∧
    genOne squareChoices 0 checkerBoard =
      ((pickShape shapeLibrary (squareChoices.fallbackShape 0),
        (attemptLoop squareChoices 0 checkerBoard 0 MAX_GENERATION_ATTEMPTS).2),
       checkerBoard) :=
  ⟨(generatePieces_three_bounded squareChoices checkerBoard).1,
   (generatePieces_three_bounded squareChoices checkerBoard).2.1 (P10, 50) (by decide),
   (generatePieces_three_bounded squareChoices checkerBoard).2.2 0 checkerBoard (by decide)⟩

/-- Claim C7: `requestNewPieces` succeeds exactly when all three slots are
consumed; with any slot still held it returns the not-all-used rejection
carrying the count of remaining pieces and the session state verbatim. -/
theorem requestNewPieces_gating (ch : GenChoices) (st : GameState)
    (hsh : ∀ l : List Piece, (ch.roundShuffle l).length = l.length) :
    ((requestNewPieces ch st).1.isOk = true ↔
      st.currentPieces.all Option.isNone = true) ∧
    (st.currentPieces.all Option.isNone = false →
      requestNewPieces ch st =
        (.error (.notAllUsed (st.currentPieces.filterMap id).length), st)) := by
  have hlen : (ch.roundShuffle
      ((generatePieces ch PIECES_PER_ROUND st.board).1.map Prod.fst)).length
      = PIECES_PER_ROUND := by
    rw [hsh, List.length_map]
    exact genLoop_length ch PIECES_PER_ROUND 0 _
  cases hall : st.currentPieces.all Option.isNone with
  | false =>
    refine ⟨?_, fun _ => ?_⟩
    · simp [requestNewPieces, hall, Except.isOk, Except.toBool]
    · simp [requestNewPieces, hall]
  | true =>
    refine ⟨?_, fun hc => by simp at hc ⊢⟩
    · simp [requestNewPieces, hall, hlen, Except.isOk, Except.toBool]

/-- Witness for `requestNewPieces_gating`: a session still holding one
piece is rejected with remaining count 1 and unchanged state. -/
theorem requestNewPieces_gating_witness :
    ((requestNewPieces squareChoices singleState).1.isOk = true ↔
      singleState.currentPieces.all Option.isNone = true) ∧
    (singleState.currentPieces.all Option.isNone = false →
      requestNewPieces squareChoices singleState =
        (.error (.notAllUsed (singleState.currentPieces.filterMap id).length),
         singleState)) :=
  requestNewPieces_gating squareChoices singleState (fun _ => rfl)

/-- Claim C8: a generator run returns the board it was given unchanged —
the clone is taken up front and every simulated placement and clearing is
applied to the working grid only. -/
theorem generatePieces_preserves_board (ch : GenChoices) (n : Nat) (b : Grid) :
    ((generatePieces ch n b).2).real = b :=
  genLoop_real ch n 0 ⟨b, b⟩

/-- Claim C9, counterexample: the save of score 1 under the empty name with
no stored record is rejected (the handler's `!name` truthiness check fires)
although no record is stored — falsifying the claimed "rejected iff a
record is stored and the score is not strictly greater". -/
theorem empty_name_save_rejected_without_record :
    ¬(((saveTopRecord "" 1 none).1.isOk = false) ↔
      ∃ r : RankRecord, (none : Option RankRecord) = some r ∧ 1 ≤ r.score) := by
  simp [saveTopRecord, Except.isOk, Except.toBool]

/-- Claim C9 (amended): for a non-empty name, a leaderboard save is
rejected — leaving the stored record unchanged — exactly when a record is
stored whose score the submitted one does not strictly exceed; on success
the stored record is replaced by one carrying the submitted score. (An
empty name is always rejected as a missing field.) -/
theorem saveTopRecord_gating (name : String) (score : Int)
    (stored : Option RankRecord) (h : name ≠ "") :
    (((saveTopRecord name score stored).1.isOk = false) ↔
      ∃ r, stored = some r ∧ score ≤ r.score) ∧
    ((saveTopRecord name score stored).1.isOk = false →
      (saveTopRecord name score stored).2 = stored) ∧
    ((saveTopRecord name score stored).1.isOk = true →
      ∃ rec, (saveTopRecord name score stored).2 = some rec ∧ rec.score = score) := by
  simp only [saveTopRecord, if_neg h]
  rcases stored with _ | r
  · simp [Except.isOk, Except.toBool]
  · by_cases hs : score ≤ r.score
    · simp [hs, Except.isOk, Except.toBool]
    · simp [hs, Except.isOk, Except.toBool]

/-- Witness for `saveTopRecord_gating`: saving score 5 as "Bob" with no
stored record. -/
theorem saveTopRecord_gating_witness :
    (((saveTopRecord "Bob" 5 none).1.isOk = false) ↔
      ∃ r, (none : Option RankRecord) = some r ∧ 5 ≤ r.score) ∧
    ((saveTopRecord "Bob" 5 none).1.isOk = false →
      (saveTopRecord "Bob" 5 none).2 = none) ∧
    ((saveTopRecord "Bob" 5 none).1.isOk = true →
      ∃ rec, (saveTopRecord "Bob" 5 none).2 = some rec ∧ rec.score = 5) :=
  saveTopRecord_gating "Bob" 5 none (by decide)

/-- Claim C10: a successful placement that consumes the last held piece
reports `isGameOver = false` unconditionally — the game-over scan is
skipped when no active piece remains, however full the resulting grid. -/
theorem last_piece_placement_never_game_over (st : GameState) (m : Piece)
    (x y : Int) (res : PlaceOk) (st' : GameState)
    (h : placeMove st m x y = .ok (res, st'))
    (hall : st'.currentPieces.all Option.isNone = true) :
    res.isGameOver = false := by
  simp only [placeMove] at h
  split at h
  · simp at h
  · split at h
    · simp at h
    · split at h
      · simp at h
      · split at h
        · simp at h
        · simp only [Except.ok.injEq, Prod.mk.injEq] at h
          obtain ⟨hres, hst⟩ := h
          subst hres
          subst hst
          simp only [List.all_eq_true] at hall
          have hempty : ∀ l : List (Option Piece),
              (∀ a ∈ l, a.isNone = true) → l.filterMap id = [] := by
            intro l hl
            refine List.filterMap_eq_nil_iff.mpr fun a ha => ?_
            have := hl a ha
            simpa [Option.isNone_iff_eq_none] using this
          rw [hempty _ hall]
          simp

/-- Witness for `last_piece_placement_never_game_over`: the single block
into the one hole of `nearFullBoard` consumes the last slot; the report is
`isGameOver = false`. -/
theorem last_piece_placement_never_game_over_witness :
    (placeResultOk nearFullState P4 0 0).isGameOver = false :=
  last_piece_placement_never_game_over nearFullState P4 0 0
    (placeResultOk nearFullState P4 0 0) (placeResultState nearFullState P4 0 0)
    (by rfl) (by decide)
